import Mathlib

/-!
Verification of the Toronto bike-share analytics core: loader, metric,
station, temporal and forecasting functions, shallowly embedded from the
Python sources (src/loader.py, src/metrics.py, src/station_analysis.py,
src/time_analysis.py, src/prediction.py).  Timestamps are modelled
abstractly (a linearly ordered instant for filtering; a (day, hour) pair
for calendar-keyed aggregation, day 0 being a Monday), numeric cells as
`Option ℚ` (`none` is the NaN a failed coercion produces), and tables as
lists of rows.
-/

namespace BikeShare

/-- Arithmetic mean of a list of rationals (`Series.mean`); 0 on `[]`. -/
def mean (xs : List ℚ) : ℚ := xs.sum / xs.length

/-! ## Temporal analysis: `get_peak_hours` (src/time_analysis.py) -/

/-- Sorted distinct keys, as `value_counts().sort_index()` produces them:
the distinct values of `hs` in ascending order. -/
def sortedKeys (hs : List ℕ) : List ℕ := List.insertionSort (· ≤ ·) hs.dedup

/-- `get_peak_hours`: hour-of-day of each row's `Start Time` comes in as a
list of naturals; `None`/empty input gives the empty frame, otherwise
`value_counts(sort=False).sort_index()` gives one `(hour, trip_count)` row
per distinct observed hour, ascending. -/
def get_peak_hours : Option (List ℕ) → List (ℕ × ℕ)
  | none => []
  | some hs =>
    if hs.isEmpty then []
    else (sortedKeys hs).map (fun h => (h, hs.count h))

theorem sortedKeys_nodup (hs : List ℕ) : (sortedKeys hs).Nodup :=
  ((List.perm_insertionSort (· ≤ ·) hs.dedup).nodup_iff).2 hs.nodup_dedup

theorem sortedKeys_sorted (hs : List ℕ) :
    List.Pairwise (· < ·) (sortedKeys hs) := by
  have hs1 : List.Sorted (· ≤ ·) (sortedKeys hs) :=
    List.sorted_insertionSort (· ≤ ·) hs.dedup
  have hsl : List.Sorted (· < ·) (sortedKeys hs) :=
    List.Sorted.lt_of_le hs1 (sortedKeys_nodup hs)
  exact hsl

theorem mem_sortedKeys {a : ℕ} {hs : List ℕ} : a ∈ sortedKeys hs ↔ a ∈ hs := by
  unfold sortedKeys
  rw [(List.perm_insertionSort (· ≤ ·) hs.dedup).mem_iff, List.mem_dedup]

/-- C2, counterexample: on a table with a single trip at hour 5,
`get_peak_hours` returns one row, not 24; hours with zero trips do not
appear. -/
theorem c2_peak_hours_counterexample :
    get_peak_hours (some [5]) = [(5, 1)] ∧
      (get_peak_hours (some [5])).length ≠ 24 := by
  constructor
  · rfl
  · decide

/-- C2, amended: `get_peak_hours` returns one row per distinct observed
hour sorted strictly ascending by hour, each row carrying that hour's
trip count; hours with zero trips are omitted. -/
theorem c2_peak_hours_amended (hs : List ℕ) :
    List.Pairwise (fun p q : ℕ × ℕ => p.1 < q.1) (get_peak_hours (some hs)) ∧
      (∀ p ∈ get_peak_hours (some hs), p.1 ∈ hs ∧ p.2 = hs.count p.1) ∧
      ∀ h ∈ hs, (h, hs.count h) ∈ get_peak_hours (some hs) := by
  by_cases he : hs.isEmpty
  · have hnil : hs = [] := by simpa using he
    subst hnil
    simp [get_peak_hours]
  · simp only [get_peak_hours, if_neg he]
    refine ⟨?_, ?_, ?_⟩
    · exact List.Pairwise.map _ (fun a b hab => hab) (sortedKeys_sorted hs)
    · intro p hp
      obtain ⟨h, hh, rfl⟩ := List.mem_map.mp hp
      exact ⟨mem_sortedKeys.mp hh, rfl⟩
    · intro h hh
      exact List.mem_map.mpr ⟨h, mem_sortedKeys.mpr hh, rfl⟩

/-- C2, witness for the amended theorem at a concrete input. -/
theorem c2_peak_hours_amended_witness :
    ((5 : ℕ), (1 : ℕ)) ∈ get_peak_hours (some [5]) := by
  have h := (c2_peak_hours_amended [5]).2.2 5 (by decide)
  simpa using h

/-! ## Metrics: `get_total_trips` (src/metrics.py) -/

/-- A trip row as `get_total_trips` sees it: only the `Start Time` cell
matters, `none` being `NaT`. -/
structure TripRow where
  startTime : Option ℤ
deriving DecidableEq, Repr

/-- `df["Start Time"] >= start` for one row: `NaT` compares false. -/
def geStart (s : Option ℤ) (t : Option ℤ) : Bool :=
  match s, t with
  | none, _ => true
  | some _, none => false
  | some sv, some tv => decide (sv ≤ tv)

/-- `df["Start Time"] <= end` for one row: `NaT` compares false. -/
def leEnd (e : Option ℤ) (t : Option ℤ) : Bool :=
  match e, t with
  | none, _ => true
  | some _, none => false
  | some ev, some tv => decide (tv ≤ ev)

/-- `get_total_trips`: 0 on `None`/empty; the raw row count when no bound
is given; otherwise the count of rows passing both bound masks. -/
def get_total_trips (df : Option (List TripRow))
    (s e : Option ℤ) : ℕ :=
  match df with
  | none => 0
  | some rows =>
    if rows.isEmpty then 0
    else if s.isNone && e.isNone then rows.length
    else (rows.filter (fun r => geStart s r.startTime && leEnd e r.startTime)).length

/-- Row count of an optional table, 0 when absent. -/
def rowCount (df : Option (List TripRow)) : ℕ := (df.getD []).length

/-- C4: with no bounds `get_total_trips` is the row count (0 for an
absent or empty table); with both bounds it counts exactly the rows whose
start time `t` satisfies `s ≤ t ≤ e`, endpoints inclusive, a null start
time never qualifying. -/
theorem c4_total_trips (df : Option (List TripRow)) (s e : ℤ) :
    get_total_trips df none none = rowCount df ∧
      get_total_trips df (some s) (some e) =
        ((df.getD []).filter (fun r =>
          match r.startTime with
          | none => false
          | some t => decide (s ≤ t) && decide (t ≤ e))).length := by
  match df with
  | none => exact ⟨rfl, rfl⟩
  | some rows =>
    by_cases he : rows.isEmpty
    · have hnil : rows = [] := by simpa using he
      subst hnil
      exact ⟨rfl, rfl⟩
    · constructor
      · simp [get_total_trips, if_neg he, rowCount]
        intro hnil
        simp [hnil]
      · simp only [get_total_trips, if_neg he, Option.isNone_some, Bool.false_and,
          Bool.and_self, Option.getD]
        rw [if_neg (by decide : ¬(false = true))]
        congr 1
        apply List.filter_congr
        intro r _
        cases ht : r.startTime with
        | none => simp [geStart, leEnd, ht]
        | some t => simp [geStart, leEnd, ht]

/-! ## Metrics: `get_avg_duration` (src/metrics.py) -/

/-- One row's three candidate duration cells, already through
`pd.to_numeric(..., errors="coerce")`: `none` is the NaN a failed
coercion (or a missing value) produces. -/
structure DRow where
  tds : Option ℚ
  td : Option ℚ
  amt : Option ℚ
deriving DecidableEq, Repr

/-- A table as `get_avg_duration` sees it: which of the three alias
columns `trip_duration_seconds`, `Trip Duration`, `amount` exist, plus
the rows. -/
structure DTable where
  hasTds : Bool
  hasTd : Bool
  hasAmt : Bool
  rows : List DRow
deriving DecidableEq, Repr

/-- `_first_existing_column(df, ["trip_duration_seconds", "Trip Duration",
"amount"])` followed by reading that column. -/
def selectDurCol (t : DTable) : Option (List (Option ℚ)) :=
  if t.hasTds then some (t.rows.map DRow.tds)
  else if t.hasTd then some (t.rows.map DRow.td)
  else if t.hasAmt then some (t.rows.map DRow.amt)
  else none

/-- `get_avg_duration`: 0 on `None`/empty/no alias column; otherwise keep
the numeric cells `v` with `0 ≤ v ≤ 86400` and return their mean over 60,
or 0 when none remain. -/
def get_avg_duration (df : Option DTable) : ℚ :=
  match df with
  | none => 0
  | some t =>
    if t.rows.isEmpty then 0
    else
      match selectDurCol t with
      | none => 0
      | some cells =>
        let vals := (cells.filterMap id).filter
          (fun v => decide (0 ≤ v) && decide (v ≤ 86400))
        if vals.isEmpty then 0 else mean vals / 60

/-- The claim's wording for C5: discard non-numeric cells and values that
are negative or greater than 86,400; return 0 when nothing remains, else
the mean of the remaining seconds divided by 60. -/
def avgDurationClaim (cells : List (Option ℚ)) : ℚ :=
  let kept := cells.filterMap (fun c =>
    match c with
    | none => none
    | some v => if v < 0 ∨ 86400 < v then none else some v)
  if kept = [] then 0 else (kept.sum / kept.length) / 60

theorem filter_eq_filterMap_keep (cells : List (Option ℚ)) :
    (cells.filterMap id).filter (fun v => decide (0 ≤ v) && decide (v ≤ 86400)) =
      cells.filterMap (fun c =>
        match c with
        | none => none
        | some v => if v < 0 ∨ 86400 < v then none else some v) := by
  induction cells with
  | nil => rfl
  | cons c cs ih =>
    cases c with
    | none => simpa using ih
    | some v =>
      by_cases h0 : (0 : ℚ) ≤ v
      · by_cases h1 : v ≤ 86400
        · have hcond : ¬(v < 0 ∨ 86400 < v) := by
            push_neg
            exact ⟨h0, h1⟩
          simp [List.filterMap_cons, List.filter_cons, h0, h1, hcond, ih]
        · have hcond : v < 0 ∨ 86400 < v := Or.inr (lt_of_not_le h1)
          simp [List.filterMap_cons, List.filter_cons, h0, h1, hcond, ih]
      · have hcond : v < 0 ∨ 86400 < v := Or.inl (lt_of_not_le h0)
        simp [List.filterMap_cons, List.filter_cons, h0, hcond, ih]

/-- C5: `get_avg_duration` agrees with the claim's description (alias
search, coercion, discarding negative / over-24h / non-numeric values,
0 fallback, mean seconds over 60) on every table, and in particular gives
2 on durations [60, 120, 180] and 3/2 on [60, 120, 90000]. -/
theorem c5_avg_duration :
    (∀ t : DTable, get_avg_duration (some t) =
        match selectDurCol t with
        | none => 0
        | some cells => avgDurationClaim cells) ∧
      get_avg_duration none = 0 ∧
      get_avg_duration (some ⟨true, false, false,
        [⟨some 60, none, none⟩, ⟨some 120, none, none⟩, ⟨some 180, none, none⟩]⟩) = 2 ∧
      get_avg_duration (some ⟨true, false, false,
        [⟨some 60, none, none⟩, ⟨some 120, none, none⟩, ⟨some 90000, none, none⟩]⟩) = 3 / 2 := by
  have hgen : ∀ t : DTable, get_avg_duration (some t) =
      match selectDurCol t with
      | none => 0
      | some cells => avgDurationClaim cells := ?_
  case _ =>
    refine ⟨hgen, rfl, ?_, ?_⟩
    · rw [hgen]
      norm_num [selectDurCol, avgDurationClaim, List.filterMap_cons]
      simp
    · rw [hgen]
      norm_num [selectDurCol, avgDurationClaim, List.filterMap_cons]
      simp
  intro t
  by_cases he : t.rows.isEmpty
  · have hnil : t.rows = [] := by simpa using he
    cases hc : selectDurCol t with
    | none => simp [get_avg_duration, he, hc]
    | some cells =>
      have hcells : cells = [] := by
        unfold selectDurCol at hc
        by_cases h1 : t.hasTds <;> by_cases h2 : t.hasTd <;> by_cases h3 : t.hasAmt <;>
          simp [h1, h2, h3, hnil] at hc <;> simp [hc.symm]
      simp [get_avg_duration, he, hc, hcells, avgDurationClaim]
  · cases hc : selectDurCol t with
    | none => simp [get_avg_duration, he, hc]
    | some cells =>
      simp only [get_avg_duration, if_neg he, hc]
      rw [avgDurationClaim, ← filter_eq_filterMap_keep]
      by_cases hv : ((cells.filterMap id).filter
          (fun v => decide (0 ≤ v) && decide (v ≤ 86400))).isEmpty
      · have hnil2 : (cells.filterMap id).filter
            (fun v => decide (0 ≤ v) && decide (v ≤ 86400)) = [] := by simpa using hv
        simp [hv, hnil2]
      · have hne : (cells.filterMap id).filter
            (fun v => decide (0 ≤ v) && decide (v ≤ 86400)) ≠ [] := by simpa using hv
        simp [hv, hne, mean]

/-! ## Loader (src/loader.py) -/

/-- A canonical-name row after `_rename_columns` and the type coercions
of `clean_data`: `none` marks `NaT` / NaN / a missing value. -/
structure RawRow where
  startTime : Option ℤ
  endTime : Option ℤ
  duration : Option ℚ
  tripId : Option ℕ
deriving DecidableEq, Repr

namespace DataLoader

/-- `DataLoader.clean_data`: after coercing the time and duration columns
(already reflected in the row type) it drops exactly the rows whose
`Start Time` is null; no other column is consulted. -/
def clean_data (rows : List RawRow) : List RawRow :=
  rows.filter (fun r => r.startTime.isSome)

/-- The two failure modes of `DataLoader.load`: `FileNotFoundError` and
the `ValueError` that wraps a CSV parse failure. -/
inductive LoadError where
  | notFound (path : String)
  | malformed (cause : String)
deriving DecidableEq, Repr

/-- `DataLoader.load`: the existence check, the guarded `pd.read_csv`
(abstracted as the parse outcome handed in), then renaming, cleaning and
the category-dtype memory optimization (value-preserving on this row
model). -/
def load (path : String) (fileExists : Bool)
    (parseResult : Except String (List RawRow)) :
    Except LoadError (List RawRow) :=
  if !fileExists then .error (.notFound path)
  else
    match parseResult with
    | .error c => .error (.malformed c)
    | .ok raw => .ok (clean_data raw)

end DataLoader

/-- C3, counterexample: a row with a valid `Start Time` but a null
`trip_id` survives `clean_data`, so the canonical table can contain a
null `trip_id`. -/
theorem c3_clean_data_counterexample :
    DataLoader.clean_data [⟨some 0, none, none, none⟩] =
        [⟨some 0, none, none, none⟩] ∧
      (RawRow.mk (some 0) none none none).tripId = none := by
  exact ⟨rfl, rfl⟩

/-- C3, amended: a row is in the cleaned table iff it was in the input
and its `start_time` is non-null; null `trip_id` rows are not dropped. -/
theorem c3_clean_data_amended (rows : List RawRow) (r : RawRow) :
    r ∈ DataLoader.clean_data rows ↔
      r ∈ rows ∧ r.startTime.isSome = true := by
  simp [DataLoader.clean_data, List.mem_filter]

/-- C6: `load` fails with `notFound` exactly when the file is absent;
when the file exists, a parse failure is wrapped into a distinct
`malformed` error carrying the cause; data is only returned on the `ok`
path, as the cleaned parse output. -/
theorem c6_load_errors (path : String) (fileExists : Bool)
    (parseResult : Except String (List RawRow)) :
    ((∃ p, DataLoader.load path fileExists parseResult =
        .error (.notFound p)) ↔ fileExists = false) ∧
      (∀ c, fileExists = true → parseResult = .error c →
        DataLoader.load path fileExists parseResult = .error (.malformed c)) ∧
      (∀ t, DataLoader.load path fileExists parseResult = .ok t →
        fileExists = true ∧ ∃ raw, parseResult = .ok raw ∧
          t = DataLoader.clean_data raw) := by
  cases fileExists with
  | false =>
    refine ⟨⟨fun _ => rfl, fun _ => ⟨path, rfl⟩⟩, ?_, ?_⟩
    · intro c hc
      exact absurd hc (by simp)
    · intro t ht
      simp [DataLoader.load] at ht
  | true =>
    cases parseResult with
    | error c =>
      refine ⟨⟨?_, by simp⟩, ?_, ?_⟩
      · rintro ⟨p, hp⟩
        simp [DataLoader.load] at hp
      · intro c2 _ hc2
        cases hc2
        rfl
      · intro t ht
        simp [DataLoader.load] at ht
    | ok raw =>
      refine ⟨⟨?_, by simp⟩, ?_, ?_⟩
      · rintro ⟨p, hp⟩
        simp [DataLoader.load] at hp
      · intro c2 _ hc2
        cases hc2
      · intro t ht
        simp only [DataLoader.load, Bool.not_true, if_neg] at ht
        refine ⟨rfl, raw, rfl, ?_⟩
        cases ht
        rfl

/-- C6, witness: at an existing file whose content fails to parse, the
parse failure is wrapped into `malformed` with its cause. -/
theorem c6_load_errors_witness :
    DataLoader.load "data.csv" true (.error "bad csv") =
      .error (.malformed "bad csv") :=
  (c6_load_errors "data.csv" true (.error "bad csv")).2.1 "bad csv" rfl rfl

/-! ## Station analysis (src/station_analysis.py) -/

/-- `str.lower()` on the characters of a station name. -/
def lowerChars (s : String) : List Char := s.toList.map Char.toLower

/-- Whether `pat` is an initial segment of `s`. -/
def leadsWith : List Char → List Char → Bool
  | [], _ => true
  | _ :: _, [] => false
  | a :: as, b :: bs => a == b && leadsWith as bs

/-- Whether `pat` occurs contiguously inside `s`. -/
def containsSeq (pat : List Char) : List Char → Bool
  | [] => pat.isEmpty
  | c :: cs => leadsWith pat (c :: cs) || containsSeq pat cs

/-- The regex `test|temp|invalid` applied to the lowercased value, as in
`.str.lower().str.contains("test|temp|invalid", na=False)`. -/
def hasPlaceholder (s : String) : Bool :=
  containsSeq "test".toList (lowerChars s) ||
    containsSeq "temp".toList (lowerChars s) ||
    containsSeq "invalid".toList (lowerChars s)

/-- The claim's narrower placeholder pattern for C8: containing "test" or
"temp", case-insensitive, with no "invalid" alternative. -/
def hasTestTempClaim (s : String) : Bool :=
  containsSeq "test".toList (lowerChars s) ||
    containsSeq "temp".toList (lowerChars s)

/-- The station-validity mask shared by the three station functions:
non-null, non-blank, and not matching the placeholder pattern. -/
def validStation : Option String → Bool
  | none => false
  | some s => !(s == "") && !hasPlaceholder s

/-- A trip row as the station functions see it. -/
structure StRow where
  start_station_name : Option String
  end_station_name : Option String
deriving DecidableEq, Repr

/-- `station_type == "start"` selects the origin column, anything else
the destination column. -/
def stationCell (stationType : String) (r : StRow) : Option String :=
  if stationType == "start" then r.start_station_name else r.end_station_name

/-- Sorted distinct group keys, as `groupby` produces them. -/
def sortedStrKeys (xs : List String) : List String :=
  List.insertionSort (· ≤ ·) xs.dedup

theorem mem_sortedStrKeys {a : String} {xs : List String} :
    a ∈ sortedStrKeys xs ↔ a ∈ xs := by
  unfold sortedStrKeys
  rw [(List.perm_insertionSort (· ≤ ·) xs.dedup).mem_iff, List.mem_dedup]

/-- `sort_values([key, name], ascending=[False, True])` as a relation:
primary key descending, tie broken by the secondary key ascending. -/
def rankLe {α : Type} {β : Type} {γ : Type} [LinearOrder β] [LinearOrder γ]
    (f : α → β) (g : α → γ) (a b : α) : Prop :=
  f b < f a ∨ (f a = f b ∧ g a ≤ g b)

instance {α β γ : Type} [LinearOrder β] [LinearOrder γ]
    (f : α → β) (g : α → γ) : DecidableRel (rankLe f g) := fun a b => by
  unfold rankLe
  infer_instance

instance {α β γ : Type} [LinearOrder β] [LinearOrder γ]
    (f : α → β) (g : α → γ) : IsTotal α (rankLe f g) := by
  constructor
  intro a b
  rcases lt_trichotomy (f a) (f b) with h | h | h
  · exact Or.inr (Or.inl h)
  · rcases le_total (g a) (g b) with hg | hg
    · exact Or.inl (Or.inr ⟨h, hg⟩)
    · exact Or.inr (Or.inr ⟨h.symm, hg⟩)
  · exact Or.inl (Or.inl h)

instance {α β γ : Type} [LinearOrder β] [LinearOrder γ]
    (f : α → β) (g : α → γ) : IsTrans α (rankLe f g) := by
  constructor
  intro a b c hab hbc
  rcases hab with h1 | ⟨h1, h1g⟩
  · rcases hbc with h2 | ⟨h2, _⟩
    · exact Or.inl (h2.trans h1)
    · exact Or.inl (h2 ▸ h1)
  · rcases hbc with h2 | ⟨h2, h2g⟩
    · exact Or.inl (h1 ▸ h2)
    · exact Or.inr ⟨h1.trans h2, h1g.trans h2g⟩

/-- `get_top_stations`: mask out invalid stations of the selected column,
group the survivors, count, sort by count descending with station name
ascending on ties, and keep the first `n` rows. -/
def get_top_stations (rows : List StRow) (n : ℕ) (stationType : String) :
    List (String × ℕ) :=
  if rows.isEmpty then []
  else
    let clean := rows.filter (fun r => validStation (stationCell stationType r))
    if clean.isEmpty then []
    else
      let cells := clean.filterMap (stationCell stationType)
      let counts := (sortedStrKeys cells).map (fun s => (s, cells.count s))
      (List.insertionSort (rankLe Prod.snd Prod.fst) counts).take n

/-- The valid station values of the selected column after the C8 filter. -/
def cleanCells (rows : List StRow) (stationType : String) : List String :=
  (rows.filter (fun r => validStation (stationCell stationType r))).filterMap
    (stationCell stationType)

/-- C8, counterexample: the source's placeholder pattern also excludes
values containing "invalid": the non-null, non-blank origin "Invalid",
which contains neither "test" nor "temp", is nevertheless filtered out,
so the top station is ("B", 1) instead of ("Invalid", 2). -/
theorem c8_top_stations_counterexample :
    get_top_stations
        [⟨some "Invalid", none⟩, ⟨some "Invalid", none⟩, ⟨some "B", none⟩]
        10 "start" = [("B", 1)] ∧
      hasTestTempClaim "Invalid" = false ∧ ("Invalid" == "") = false := by
  refine ⟨by decide, by decide, by decide⟩

/-- C8, amended: with the placeholder pattern widened to
test/temp/invalid, `get_top_stations` filters null, blank and placeholder
values of the selected column, counts the rest per station, orders rows
by count descending with station name ascending on ties, and returns at
most `n` rows; with `n` at least the number of distinct valid stations,
every observed valid station appears with its count. -/
theorem c8_top_stations_amended (rows : List StRow) (n : ℕ) (st : String)
    (hn : (sortedStrKeys (cleanCells rows st)).length ≤ n) :
    List.Pairwise (rankLe Prod.snd Prod.fst) (get_top_stations rows n st) ∧
      (∀ p ∈ get_top_stations rows n st,
        validStation (some p.1) = true ∧
          p.2 = (cleanCells rows st).count p.1) ∧
      (get_top_stations rows n st).length ≤ n ∧
      ∀ s ∈ cleanCells rows st,
        (s, (cleanCells rows st).count s) ∈ get_top_stations rows n st := by
  by_cases hre : rows.isEmpty
  · have hnil : rows = [] := by simpa using hre
    subst hnil
    refine ⟨by simp [get_top_stations], by simp [get_top_stations], ?_, ?_⟩
    · simp [get_top_stations]
    · intro s hs
      simp [cleanCells] at hs
  · by_cases hce : (rows.filter
        (fun r => validStation (stationCell st r))).isEmpty
    · have hnil2 : rows.filter (fun r => validStation (stationCell st r)) = [] := by
        simpa using hce
      have hres : get_top_stations rows n st = [] := by
        simp [get_top_stations, if_neg hre, hce]
      have hcc : cleanCells rows st = [] := by
        simp [cleanCells, hnil2]
      refine ⟨by simp [hres], by simp [hres], by simp [hres], ?_⟩
      intro s hs
      rw [hcc] at hs
      exact absurd hs (List.not_mem_nil s)
    · have hres : get_top_stations rows n st =
          (List.insertionSort (rankLe Prod.snd Prod.fst)
            ((sortedStrKeys (cleanCells rows st)).map
              (fun s => (s, (cleanCells rows st).count s)))).take n := by
        simp only [get_top_stations]
        rw [if_neg hre, if_neg hce]
        rfl
      set cells := cleanCells rows st with hcells
      set counts := (sortedStrKeys cells).map
        (fun s => (s, cells.count s)) with hcounts
      have hperm := List.perm_insertionSort (rankLe Prod.snd Prod.fst) counts
      refine ⟨?_, ?_, ?_, ?_⟩
      · rw [hres]
        exact List.Pairwise.sublist (List.take_sublist n _)
          (List.sorted_insertionSort (rankLe Prod.snd Prod.fst) counts)
      · intro p hp
        rw [hres] at hp
        have hp2 : p ∈ counts := hperm.mem_iff.mp (List.mem_of_mem_take hp)
        obtain ⟨s, hskey, rfl⟩ := List.mem_map.mp hp2
        have hsc : s ∈ cells := mem_sortedStrKeys.mp hskey
        obtain ⟨r, hr, hcell⟩ := List.mem_filterMap.mp hsc
        have hrv : validStation (stationCell st r) = true :=
          (List.mem_filter.mp hr).2
        rw [hcell] at hrv
        exact ⟨hrv, rfl⟩
      · rw [hres]
        exact List.length_take_le n _
      · intro s hs
        have hlen : (List.insertionSort (rankLe Prod.snd Prod.fst) counts).length ≤ n := by
          rw [hperm.length_eq, hcounts, List.length_map]
          exact hn
        rw [hres, List.take_of_length_le hlen, hperm.mem_iff]
        exact List.mem_map.mpr ⟨s, mem_sortedStrKeys.mpr hs, rfl⟩

/-- C8, witness for the amended theorem at a concrete input. -/
theorem c8_top_stations_amended_witness :
    ("A", 1) ∈ get_top_stations [⟨some "A", none⟩] 10 "start" := by
  have h := (c8_top_stations_amended [⟨some "A", none⟩] 10 "start"
    (by decide)).2.2.2 "A" (by decide)
  simpa using h

/-- One output row of the flow balance: station, integer net flow, and
the rebalancing-priority label. -/
structure FlowRow where
  station : String
  netFlow : ℤ
  priority : String
deriving DecidableEq, Repr

/-- The row mask of `get_station_flow_balance`: both endpoints must be
valid stations. -/
def cleanFlow (rows : List StRow) : List StRow :=
  rows.filter (fun r =>
    validStation r.start_station_name && validStation r.end_station_name)

/-- Departures = rows with the station as origin. -/
def countStart (rows : List StRow) (s : String) : ℕ :=
  (rows.filterMap StRow.start_station_name).count s

/-- Arrivals = rows with the station as destination. -/
def countEnd (rows : List StRow) (s : String) : ℕ :=
  (rows.filterMap StRow.end_station_name).count s

/-- The station keys of the outer merge of arrivals and departures: the
arrival keys, then the departure-only keys. -/
def flowStations (clean : List StRow) : List String :=
  let arrKeys := sortedStrKeys (clean.filterMap StRow.end_station_name)
  let depKeys := sortedStrKeys (clean.filterMap StRow.start_station_name)
  arrKeys ++ depKeys.filter (fun s => !(arrKeys.contains s))

/-- The flow row built for one station: `net_flow = arrivals − departures`
(`astype(int)` makes it integer-typed), with the priority label from the
`abs(net_flow) > threshold` test. -/
def mkFlowRow (clean : List StRow) (thr : ℤ) (s : String) : FlowRow :=
  let net : ℤ := (countEnd clean s : ℤ) - (countStart clean s : ℤ)
  { station := s, netFlow := net,
    priority := if thr < |net| then "🚨 High" else "✓ Normal" }

/-- `get_station_flow_balance`: filter invalid endpoints, count arrivals
and departures per station, outer-merge the two key sets with the missing
side filled to 0, sort by absolute net flow descending (station name
ascending on ties) and keep the first `n` rows. -/
def get_station_flow_balance (rows : List StRow) (n : ℕ) (thr : ℤ) :
    List FlowRow :=
  let clean := cleanFlow rows
  if clean.isEmpty then []
  else
    (List.insertionSort (rankLe (fun fr => fr.netFlow.natAbs) FlowRow.station)
      ((flowStations clean).map (mkFlowRow clean thr))).take n

/-- C7, counterexample: a row whose destination matches the placeholder
filter is removed entirely, so its origin "A" — a station appearing as an
origin of the table — gets no row at all (the result is empty), against
the claim's `net_flow = 0 − 1` for "A". -/
theorem c7_flow_balance_counterexample :
    get_station_flow_balance [⟨some "A", some "temp B"⟩] 20 50 = [] ∧
      ([⟨some "A", some "temp B"⟩] : List StRow).filterMap
        StRow.start_station_name = ["A"] := by
  refine ⟨by decide, rfl⟩

/-- C7, amended: over the rows surviving the endpoint-validity filter
(null, blank or test/temp/invalid endpoints drop the whole row),
`get_station_flow_balance` gives every returned station an integer
`net_flow` equal to its arrivals minus its departures, and once `n` is at
least the number of stations in the outer union, every station appearing
as a valid origin or destination gets such a row. -/
theorem c7_flow_balance_amended (rows : List StRow) (n : ℕ) (thr : ℤ)
    (hn : (flowStations (cleanFlow rows)).length ≤ n) :
    (∀ fr ∈ get_station_flow_balance rows n thr,
        fr.netFlow = (countEnd (cleanFlow rows) fr.station : ℤ) -
          (countStart (cleanFlow rows) fr.station : ℤ)) ∧
      ∀ s, (s ∈ (cleanFlow rows).filterMap StRow.end_station_name ∨
            s ∈ (cleanFlow rows).filterMap StRow.start_station_name) →
        ∃ fr ∈ get_station_flow_balance rows n thr,
          fr.station = s ∧
            fr.netFlow = (countEnd (cleanFlow rows) s : ℤ) -
              (countStart (cleanFlow rows) s : ℤ) := by
  set clean := cleanFlow rows with hclean
  by_cases hce : clean.isEmpty
  · have hnil : clean = [] := by simpa using hce
    have hres : get_station_flow_balance rows n thr = [] := by
      simp only [get_station_flow_balance]
      rw [← hclean, if_pos hce]
    refine ⟨by simp [hres], ?_⟩
    intro s hs
    rw [hnil] at hs
    simp at hs
  · have hres : get_station_flow_balance rows n thr =
        (List.insertionSort
          (rankLe (fun fr => fr.netFlow.natAbs) FlowRow.station)
          ((flowStations clean).map (mkFlowRow clean thr))).take n := by
      simp only [get_station_flow_balance]
      rw [← hclean, if_neg hce]
    have hperm := List.perm_insertionSort
      (rankLe (fun fr => fr.netFlow.natAbs) FlowRow.station)
      ((flowStations clean).map (mkFlowRow clean thr))
    constructor
    · intro fr hfr
      rw [hres] at hfr
      have hfr2 := hperm.mem_iff.mp (List.mem_of_mem_take hfr)
      obtain ⟨s, _, rfl⟩ := List.mem_map.mp hfr2
      rfl
    · intro s hs
      have hsmem : s ∈ flowStations clean := by
        unfold flowStations
        rcases hs with hs | hs
        · exact List.mem_append_left _ (mem_sortedStrKeys.mpr hs)
        · by_cases ha : s ∈ sortedStrKeys (clean.filterMap StRow.end_station_name)
          · exact List.mem_append_left _ ha
          · refine List.mem_append_right _ ?_
            refine List.mem_filter.mpr ⟨mem_sortedStrKeys.mpr hs, ?_⟩
            simp [ha]
      have hlen : (List.insertionSort
          (rankLe (fun fr => fr.netFlow.natAbs) FlowRow.station)
          ((flowStations clean).map (mkFlowRow clean thr))).length ≤ n := by
        rw [hperm.length_eq, List.length_map]
        exact hn
      refine ⟨mkFlowRow clean thr s, ?_, rfl, rfl⟩
      rw [hres, List.take_of_length_le hlen, hperm.mem_iff]
      exact List.mem_map.mpr ⟨s, hsmem, rfl⟩

/-- C7, witness for the amended theorem at a concrete input. -/
theorem c7_flow_balance_amended_witness :
    ∃ fr ∈ get_station_flow_balance [⟨some "A", some "B"⟩] 20 50,
      fr.station = "A" ∧
        fr.netFlow = (countEnd (cleanFlow [⟨some "A", some "B"⟩]) "A" : ℤ) -
          (countStart (cleanFlow [⟨some "A", some "B"⟩]) "A" : ℤ) :=
  (c7_flow_balance_amended [⟨some "A", some "B"⟩] 20 50 (by decide)).2
    "A" (Or.inr (by decide))

/-! ## Metrics: `get_bike_usage` (src/metrics.py) -/

/-- A trip row as `get_bike_usage` sees it: the resolved id cell (`none`
is NaN, which `groupby` drops) and the resolved duration cell after
numeric coercion. -/
structure BikeRow where
  bike_id : Option ℕ
  duration : Option ℚ
deriving DecidableEq, Repr

/-- One output row of the usage ranking. -/
structure UsageRow where
  bike_id : ℕ
  total_duration_seconds : ℚ
  is_extreme : Bool
deriving DecidableEq, Repr

/-- `df.groupby(id_col)[dur_col].sum()`: ascending non-null keys, each
with the NaN-skipping sum of its group's durations. -/
def groupedUsage (rows : List BikeRow) : List (ℕ × ℚ) :=
  (sortedKeys (rows.filterMap BikeRow.bike_id)).map (fun k =>
    (k, ((rows.filter (fun r => r.bike_id == some k)).filterMap
      BikeRow.duration).sum))

/-- `Series.quantile(q)` with the default linear interpolation: with the
values sorted ascending and `h = (n-1)q`, interpolate between the entries
at positions `⌊h⌋` and `⌊h⌋+1` (clamped to the last entry). -/
def quantileLinear (xs : List ℚ) (q : ℚ) : ℚ :=
  let s := List.insertionSort (· ≤ ·) xs
  let n := s.length
  let h : ℚ := ((n : ℚ) - 1) * q
  let lo : ℕ := (Int.floor h).toNat
  let frac : ℚ := h - (lo : ℚ)
  let a := s.getD lo 0
  let b := s.getD (min (lo + 1) (n - 1)) 0
  a + frac * (b - a)

/-- One ranked output row: `is_extreme` is the
`total_duration_seconds >= cutoff` flag. -/
def usageRowOf (cutoff : ℚ) (p : ℕ × ℚ) : UsageRow :=
  { bike_id := p.1, total_duration_seconds := p.2,
    is_extreme := decide (cutoff ≤ p.2) }

/-- `get_bike_usage`: empty or column-less input gives the empty frame;
otherwise group durations per non-null bike id, sort by summed duration
descending, flag rows at or above the `q`-quantile cutoff as extreme, and
keep the first `top_n` rows. -/
def get_bike_usage (hasId hasDur : Bool) (rows : List BikeRow)
    (top_n : ℕ) (q : ℚ) : List UsageRow :=
  if rows.isEmpty then []
  else if !hasId || !hasDur then []
  else
    let grouped := groupedUsage rows
    if grouped.isEmpty then []
    else
      let sorted := List.insertionSort (rankLe Prod.snd Prod.fst) grouped
      let cutoff := quantileLinear (sorted.map Prod.snd) q
      (sorted.map (usageRowOf cutoff)).take top_n

/-- The linear-interpolation quantile never exceeds an upper bound of the
sample, for any quantile in [0, 1]. -/
theorem quantileLinear_le_bound (xs : List ℚ) (q M : ℚ)
    (hne : xs ≠ []) (hq0 : 0 ≤ q) (hq1 : q ≤ 1)
    (hM : ∀ y ∈ xs, y ≤ M) : quantileLinear xs q ≤ M := by
  have hperm := List.perm_insertionSort (· ≤ ·) xs
  set s := List.insertionSort (· ≤ ·) xs with hsdef
  have hsM : ∀ y ∈ s, y ≤ M := fun y hy => hM y (hperm.mem_iff.mp hy)
  have hslen : 1 ≤ s.length := by
    rcases List.exists_cons_of_ne_nil hne with ⟨x, xs2, rfl⟩
    have := hperm.length_eq
    simp [this]
  set n := s.length with hn
  set h : ℚ := ((n : ℚ) - 1) * q with hh
  have hn1 : (1 : ℚ) ≤ (n : ℚ) := by exact_mod_cast hslen
  have hh0 : 0 ≤ h := mul_nonneg (by linarith) hq0
  have hh1 : h ≤ (n : ℚ) - 1 := by
    calc h ≤ ((n : ℚ) - 1) * 1 := by
          apply mul_le_mul_of_nonneg_left hq1
          linarith
      _ = (n : ℚ) - 1 := mul_one _
  have hfl0 : 0 ≤ ⌊h⌋ := Int.floor_nonneg.mpr hh0
  have hflub : ⌊h⌋ ≤ (n : ℤ) - 1 := by
    have : ((n : ℚ) - 1) = (((n : ℤ) - 1 : ℤ) : ℚ) := by push_cast; ring
    rw [this] at hh1
    have := Int.floor_le_floor hh1
    rwa [Int.floor_intCast] at this
  set lo : ℕ := (Int.floor h).toNat with hlo
  have hlocast : (lo : ℚ) = ((⌊h⌋ : ℤ) : ℚ) := by
    rw [hlo]
    exact_mod_cast congrArg (fun z : ℤ => (z : ℚ)) (Int.toNat_of_nonneg hfl0)
  have hlolt : lo < n := by
    have h1 : (lo : ℤ) ≤ (n : ℤ) - 1 := by
      rw [hlo, Int.toNat_of_nonneg hfl0]
      exact hflub
    omega
  have hblt : min (lo + 1) (n - 1) < n := by omega
  have hfrac0 : 0 ≤ h - (lo : ℚ) := by
    rw [hlocast]
    have := Int.floor_le h
    linarith
  have hfrac1 : h - (lo : ℚ) ≤ 1 := by
    rw [hlocast]
    have := Int.lt_floor_add_one h
    push_cast at this ⊢
    linarith
  have ha : s.getD lo 0 ≤ M := by
    rw [List.getD_eq_getElem s 0 hlolt]
    exact hsM _ (List.getElem_mem hlolt)
  have hb : s.getD (min (lo + 1) (n - 1)) 0 ≤ M := by
    rw [List.getD_eq_getElem s 0 hblt]
    exact hsM _ (List.getElem_mem hblt)
  show s.getD lo 0 + (h - (lo : ℚ)) * (s.getD (min (lo + 1) (n - 1)) 0 - s.getD lo 0) ≤ M
  nlinarith [mul_nonneg hfrac0 (sub_nonneg.mpr hb),
    mul_nonneg (sub_nonneg.mpr hfrac1) (sub_nonneg.mpr ha)]

/-- C10, counterexample: a non-empty table with both columns present and
a numeric duration, but whose only bike id is null, yields an empty
ranking — `groupby` drops the null key — so no row is flagged extreme. -/
theorem c10_bike_usage_counterexample :
    get_bike_usage true true [⟨none, some 60⟩] 10 (95 / 100) = [] := by
  decide

/-- C10, amended: whenever at least one row has a non-null bike id (and
the two columns exist), the top-ranked vehicle's summed duration is at
or above the linear-interpolation quantile cutoff for any quantile in
[0, 1], so for any positive `top_n` the returned table has a row with
`is_extreme = True`. -/
theorem c10_bike_usage_amended (rows : List BikeRow) (top_n : ℕ) (q : ℚ)
    (hid : rows.filterMap BikeRow.bike_id ≠ [])
    (hq0 : 0 ≤ q) (hq1 : q ≤ 1) (htn : 1 ≤ top_n) :
    ∃ p ∈ get_bike_usage true true rows top_n q, p.is_extreme = true := by
  have hrne : ¬rows.isEmpty = true := by
    cases rows with
    | nil => exact absurd rfl hid
    | cons r rs => simp
  have hkeys : sortedKeys (rows.filterMap BikeRow.bike_id) ≠ [] := by
    intro hcon
    apply hid
    rcases List.exists_cons_of_ne_nil hid with ⟨x, l, he⟩
    have : x ∈ sortedKeys (rows.filterMap BikeRow.bike_id) :=
      mem_sortedKeys.mpr (he ▸ List.mem_cons_self x l)
    rw [hcon] at this
    exact absurd this (List.not_mem_nil x)
  have hgne : groupedUsage rows ≠ [] := by
    unfold groupedUsage
    intro hcon
    exact hkeys (List.map_eq_nil_iff.mp hcon)
  have hgE : ¬(groupedUsage rows).isEmpty = true := by
    simpa using hgne
  have hperm := List.perm_insertionSort (rankLe Prod.snd Prod.fst)
    (groupedUsage rows)
  have hsorted := List.sorted_insertionSort (rankLe Prod.snd Prod.fst)
    (groupedUsage rows)
  have hsne : List.insertionSort (rankLe Prod.snd Prod.fst)
      (groupedUsage rows) ≠ [] := by
    intro hcon
    exact hgne (List.Perm.eq_nil (hcon ▸ hperm).symm)
  rcases List.exists_cons_of_ne_nil hsne with ⟨hd, tl, hcons⟩
  have hmax : ∀ y ∈ (List.insertionSort (rankLe Prod.snd Prod.fst)
      (groupedUsage rows)).map Prod.snd, y ≤ hd.2 := by
    intro y hy
    obtain ⟨p, hp, rfl⟩ := List.mem_map.mp hy
    rw [hcons] at hp
    rcases List.mem_cons.mp hp with rfl | hptl
    · exact le_refl _
    · have hpw := hsorted
      rw [hcons] at hpw
      have hrel := (List.pairwise_cons.mp hpw).1 p hptl
      rcases hrel with hlt | ⟨heq, _⟩
      · exact le_of_lt hlt
      · exact heq.ge
  have hmapne : (List.insertionSort (rankLe Prod.snd Prod.fst)
      (groupedUsage rows)).map Prod.snd ≠ [] := by
    rw [hcons]
    simp
  have hcut : quantileLinear ((List.insertionSort (rankLe Prod.snd Prod.fst)
      (groupedUsage rows)).map Prod.snd) q ≤ hd.2 :=
    quantileLinear_le_bound _ q hd.2 hmapne hq0 hq1 hmax
  have hres : get_bike_usage true true rows top_n q =
      ((List.insertionSort (rankLe Prod.snd Prod.fst)
        (groupedUsage rows)).map (usageRowOf (quantileLinear
          ((List.insertionSort (rankLe Prod.snd Prod.fst)
            (groupedUsage rows)).map Prod.snd) q))).take top_n := by
    simp only [get_bike_usage, if_neg hrne, Bool.not_true, Bool.or_self]
    rw [if_neg (by decide : ¬(false = true)), if_neg hgE]
  refine ⟨usageRowOf (quantileLinear
      ((List.insertionSort (rankLe Prod.snd Prod.fst)
        (groupedUsage rows)).map Prod.snd) q) hd, ?_, ?_⟩
  · rw [hres]
    cases top_n with
    | zero => omega
    | succ m =>
      rw [hcons, List.map_cons, List.take_succ_cons]
      exact List.mem_cons_self _ _
  · simp only [usageRowOf]
    exact decide_eq_true hcut

/-- C10, witness for the amended theorem at a concrete input. -/
theorem c10_bike_usage_amended_witness :
    ∃ p ∈ get_bike_usage true true [⟨some 1, some 60⟩, ⟨some 1, some 120⟩,
      ⟨some 2, some 30⟩] 10 (95 / 100), p.is_extreme = true :=
  c10_bike_usage_amended [⟨some 1, some 60⟩, ⟨some 1, some 120⟩,
    ⟨some 2, some 30⟩] 10 (95 / 100) (by decide) (by norm_num) (by norm_num)
    (by norm_num)

/-! ## Demand forecaster: `predict_hourly_demand` (src/prediction.py) -/

/-- A trip's `Start Time`, reduced to what the forecaster reads from it:
its calendar day (an epoch day count, day 0 a Monday) and hour of day. -/
structure STime where
  day : ℕ
  hour : ℕ
deriving DecidableEq, Repr

/-- `dt.dayofweek >= 5`: Saturday/Sunday for a Monday-based epoch. -/
def isWeekendDay (d : ℕ) : Bool := decide (5 ≤ d % 7)

/-- The `(date, hour, is_weekend)` key of one trip. -/
def tripKey (t : STime) : ℕ × ℕ × Bool := (t.day, t.hour, isWeekendDay t.day)

/-- One output row of the forecast. -/
structure PredRow where
  hour : ℕ
  predicted_demand : ℚ
  std_dev : ℚ
  weekday_demand : ℚ
  weekend_demand : ℚ
deriving DecidableEq, Repr

/-- `round(0)` in pandas/numpy: round half to even, to whole numbers. -/
def roundHalfEven (x : ℚ) : ℚ :=
  let f : ℤ := Int.floor x
  if x - (f : ℚ) < 1 / 2 then (f : ℚ)
  else if x - (f : ℚ) = 1 / 2 then
    (if f % 2 = 0 then (f : ℚ) else (f : ℚ) + 1)
  else (f : ℚ) + 1

/-- `Series.std()`'s square: the sample variance with `ddof=1`. -/
def sampleVar (xs : List ℚ) : ℚ :=
  ((xs.map (fun x => (x - mean xs) ^ 2)).sum) / ((xs.length : ℚ) - 1)

/-- The composition `round(std, 0)`: the nearest integer to the square
root of the variance, half to even, computed exactly on rationals. -/
def roundSqrtHalfEven (v : ℚ) : ℚ :=
  let n0 : ℕ := Nat.sqrt (Int.toNat (Int.floor v))
  let tie : ℚ := ((2 * (n0 : ℚ) + 1) / 2) ^ 2
  if v < tie then (n0 : ℚ)
  else if v = tie then (if n0 % 2 = 0 then (n0 : ℚ) else (n0 : ℚ) + 1)
  else (n0 : ℚ) + 1

/-- `groupby(['date', 'hour', 'is_weekend']).size()`: each distinct key
with its trip count. -/
def hourlyCounts (df : List STime) : List ((ℕ × ℕ × Bool) × ℕ) :=
  ((df.map tripKey).dedup).map (fun k => (k, (df.map tripKey).count k))

/-- The merged, NaN-filled, rounded forecast row for hour `h`: each
aggregate left-merges onto the 24-hour template, absent hours and
single-sample standard deviations becoming 0 via `fillna(0)`. -/
def predRowAt (samples : List ((ℕ × ℕ × Bool) × ℕ)) (h : ℕ) : PredRow :=
  let allTrips := samples.filterMap (fun kc =>
    if kc.1.2.1 == h then some ((kc.2 : ℚ)) else none)
  let wdTrips := samples.filterMap (fun kc =>
    if kc.1.2.1 == h && kc.1.2.2 == false then some ((kc.2 : ℚ)) else none)
  let weTrips := samples.filterMap (fun kc =>
    if kc.1.2.1 == h && kc.1.2.2 == true then some ((kc.2 : ℚ)) else none)
  { hour := h,
    predicted_demand :=
      if allTrips.isEmpty then 0 else roundHalfEven (mean allTrips),
    std_dev :=
      if allTrips.length < 2 then 0 else roundSqrtHalfEven (sampleVar allTrips),
    weekday_demand :=
      if wdTrips.isEmpty then 0 else roundHalfEven (mean wdTrips),
    weekend_demand :=
      if weTrips.isEmpty then 0 else roundHalfEven (mean weTrips) }

/-- `predict_hourly_demand`: an empty input returns the empty
column-only frame; otherwise the per-(date, hour, weekend) counts are
aggregated per hour onto the 24-row template. -/
def predict_hourly_demand (df : List STime) : List PredRow :=
  if df.isEmpty then []
  else (List.range 24).map (predRowAt (hourlyCounts df))

/-- C1: on the empty table `predict_hourly_demand` returns a 0-row frame,
not the 24-row zero-filled shape its own docstring and the spec promise;
on any non-empty table it does return exactly 24 rows, hours without
observed trips zero-filled in every metric column. -/
theorem c1_predict_empty_bug :
    predict_hourly_demand [] = [] ∧
      (predict_hourly_demand []).length = 0 ∧
      (∀ df : List STime, ¬df.isEmpty = true →
        (predict_hourly_demand df).length = 24) ∧
      ∀ df : List STime, ∀ p ∈ predict_hourly_demand df,
        p.hour ∉ df.map STime.hour →
          p.predicted_demand = 0 ∧ p.std_dev = 0 ∧
            p.weekday_demand = 0 ∧ p.weekend_demand = 0 := by
  refine ⟨rfl, rfl, ?_, ?_⟩
  · intro df hne
    simp only [predict_hourly_demand, if_neg hne]
    rw [List.length_map, List.length_range]
  · intro df p hp hh
    by_cases hne : df.isEmpty
    · rw [predict_hourly_demand, if_pos hne] at hp
      exact absurd hp (List.not_mem_nil p)
    · rw [predict_hourly_demand, if_neg hne] at hp
      obtain ⟨h, _, rfl⟩ := List.mem_map.mp hp
      have hkey : ∀ kc ∈ hourlyCounts df, ¬kc.1.2.1 = h := by
        intro kc hkc hcon
        obtain ⟨k, hk, rfl⟩ := List.mem_map.mp hkc
        have hk2 : k ∈ df.map tripKey := List.mem_dedup.mp hk
        obtain ⟨t, ht, rfl⟩ := List.mem_map.mp hk2
        apply hh
        have : (predRowAt (hourlyCounts df) h).hour = h := rfl
        rw [this]
        rw [← hcon]
        exact List.mem_map.mpr ⟨t, ht, rfl⟩
      have hall : (hourlyCounts df).filterMap (fun kc =>
          if kc.1.2.1 == h then some ((kc.2 : ℚ)) else none) = [] := by
        rw [List.filterMap_eq_nil_iff]
        intro kc hkc
        rw [if_neg (by simpa using hkey kc hkc)]
      have hwd : (hourlyCounts df).filterMap (fun kc =>
          if kc.1.2.1 == h && kc.1.2.2 == false then
            some ((kc.2 : ℚ)) else none) = [] := by
        rw [List.filterMap_eq_nil_iff]
        intro kc hkc
        have : (kc.1.2.1 == h) = false := by simpa using hkey kc hkc
        rw [this]
        rfl
      have hwe : (hourlyCounts df).filterMap (fun kc =>
          if kc.1.2.1 == h && kc.1.2.2 == true then
            some ((kc.2 : ℚ)) else none) = [] := by
        rw [List.filterMap_eq_nil_iff]
        intro kc hkc
        have : (kc.1.2.1 == h) = false := by simpa using hkey kc hkc
        rw [this]
        rfl
      refine ⟨?_, ?_, ?_, ?_⟩ <;>
        simp only [predRowAt, hall, hwd, hwe, List.isEmpty_nil,
          List.length_nil, if_pos]
      rfl

/-- C1, witness: a one-trip table takes the non-empty path and yields
24 rows, and a row for an hour with no trips is zero-filled. -/
theorem c1_predict_empty_bug_witness :
    (predict_hourly_demand [⟨0, 8⟩]).length = 24 :=
  c1_predict_empty_bug.2.2.1 [⟨0, 8⟩] (by decide)

/-! ## The remaining aggregation functions

`get_top_routes`, `get_user_type_breakdown` and `get_daily_trend` are
embedded here so the purity claim can range over the whole aggregation
surface. -/

/-- The route label `"origin → destination"` built by `get_top_routes`
after the validity filter (both endpoints are non-null there). -/
def routeOf (r : StRow) : String :=
  (r.start_station_name.getD "") ++ " → " ++ (r.end_station_name.getD "")

/-- `get_top_routes`: the same endpoint-validity mask as the flow
balance, an optional exclusion of circular routes, then group-by-route
counts sorted count-descending with route-label ascending on ties, first
`n` kept.  The `>10000`-row categorical cast of the source is
value-preserving and has no counterpart here. -/
def get_top_routes (rows : List StRow) (n : ℕ) (include_circular : Bool) :
    List (String × ℕ) :=
  if rows.isEmpty then []
  else
    let clean := cleanFlow rows
    if clean.isEmpty then []
    else
      let clean2 := if include_circular then clean
        else clean.filter (fun r =>
          !(r.start_station_name == r.end_station_name))
      let routes := clean2.map routeOf
      let counts := (sortedStrKeys routes).map (fun s => (s, routes.count s))
      (List.insertionSort (rankLe Prod.snd Prod.fst) counts).take n

/-- One row's three candidate user-type cells (`none` is NaN). -/
structure UTRow where
  user_type : Option String
  userTypeHdr : Option String
  typeAlias : Option String
deriving DecidableEq, Repr

/-- A table as `get_user_type_breakdown` sees it: which of the alias
columns `user_type`, `User Type`, `type` exist, plus the rows. -/
structure UTable where
  hasUserType : Bool
  hasUserTypeHdr : Bool
  hasTypeAlias : Bool
  rows : List UTRow
deriving DecidableEq, Repr

/-- `_first_existing_column(df, ["user_type", "User Type", "type"])`
followed by reading that column. -/
def selectUserCol (t : UTable) : Option (List (Option String)) :=
  if t.hasUserType then some (t.rows.map UTRow.user_type)
  else if t.hasUserTypeHdr then some (t.rows.map UTRow.userTypeHdr)
  else if t.hasTypeAlias then some (t.rows.map UTRow.typeAlias)
  else none

/-- `value_counts(dropna=True)`: non-null labels with their counts,
sorted count-descending; the tie order pandas leaves unspecified is
determinized by label ascending. -/
def valueCounts (labels : List String) : List (String × ℕ) :=
  List.insertionSort (rankLe Prod.snd Prod.fst)
    ((sortedStrKeys labels).map (fun s => (s, labels.count s)))

/-- `Series.round(1)`: round half to even at one decimal place. -/
def roundTo1HalfEven (x : ℚ) : ℚ := roundHalfEven (x * 10) / 10

/-- `get_user_type_breakdown`: `{}` on `None`/empty/no alias column;
otherwise the per-label counts, or the percentage breakdown
`(count / total * 100).round(1)` with `{}` on a zero total. -/
def get_user_type_breakdown (df : Option UTable)
    (return_percentages : Bool) : List (String × ℚ) :=
  match df with
  | none => []
  | some t =>
    if t.rows.isEmpty then []
    else
      match selectUserCol t with
      | none => []
      | some cells =>
        let counts := valueCounts (cells.filterMap id)
        if !return_percentages then counts.map (fun p => (p.1, (p.2 : ℚ)))
        else
          let total := (counts.map Prod.snd).sum
          if total = 0 then []
          else counts.map (fun p =>
            (p.1, roundTo1HalfEven ((p.2 : ℚ) / (total : ℚ) * 100)))

/-- `dt.day_name()` for the Monday-based epoch day count. -/
def dayName (d : ℕ) : String :=
  match d % 7 with
  | 0 => "Monday"
  | 1 => "Tuesday"
  | 2 => "Wednesday"
  | 3 => "Thursday"
  | 4 => "Friday"
  | 5 => "Saturday"
  | _ => "Sunday"

/-- One output row of the daily trend. -/
structure TrendRow where
  date : ℕ
  trip_count : ℕ
  day_of_week : String
  is_peak_day : Bool
deriving DecidableEq, Repr

/-- `get_daily_trend`: the calendar dates of the rows' `Start Time` come
in as epoch day counts; `value_counts(sort=False).sort_index()` gives one
row per distinct date chronologically, annotated with the weekday name
and the maximum-count flag (ties all flagged). -/
def get_daily_trend : Option (List ℕ) → List TrendRow
  | none => []
  | some ds =>
    if ds.isEmpty then []
    else
      let daily := (sortedKeys ds).map (fun d => (d, ds.count d))
      let maxTrips := (daily.map Prod.snd).foldr max 0
      daily.map (fun p =>
        { date := p.1, trip_count := p.2, day_of_week := dayName p.1,
          is_peak_day := p.2 == maxTrips })

/-! ## Purity of the aggregations (C9)

Each aggregation's body either never writes to its argument
(`get_peak_hours`, `get_daily_trend`, `get_avg_duration` and
`get_user_type_breakdown` build fresh Series; `get_total_trips` rebinds
its local name to `df.loc[mask]`) or copies before its in-place writes
(`predict_hourly_demand` and `get_bike_usage` via `df = df.copy()`;
`get_top_stations`, `get_top_routes` and `get_station_flow_balance` via
`clean_df = df[mask].copy()`, all later column writes and casts hitting
`clean_df`).  The tracked variants thread the caller's object through
the call and return it alongside the result. -/

def predict_hourly_demand_tracked (caller : List STime) :
    List PredRow × List STime :=
  let df := caller
  (predict_hourly_demand df, caller)

def get_bike_usage_tracked (hasId hasDur : Bool) (caller : List BikeRow)
    (top_n : ℕ) (q : ℚ) : List UsageRow × List BikeRow :=
  let df := caller
  (get_bike_usage hasId hasDur df top_n q, caller)

def get_peak_hours_tracked (caller : Option (List ℕ)) :
    List (ℕ × ℕ) × Option (List ℕ) :=
  (get_peak_hours caller, caller)

def get_total_trips_tracked (caller : Option (List TripRow))
    (s e : Option ℤ) : ℕ × Option (List TripRow) :=
  (get_total_trips caller s e, caller)

def get_avg_duration_tracked (caller : Option DTable) :
    ℚ × Option DTable :=
  (get_avg_duration caller, caller)

def get_user_type_breakdown_tracked (caller : Option UTable)
    (return_percentages : Bool) : List (String × ℚ) × Option UTable :=
  (get_user_type_breakdown caller return_percentages, caller)

def get_top_stations_tracked (caller : List StRow) (n : ℕ)
    (stationType : String) : List (String × ℕ) × List StRow :=
  (get_top_stations caller n stationType, caller)

def get_top_routes_tracked (caller : List StRow) (n : ℕ)
    (include_circular : Bool) : List (String × ℕ) × List StRow :=
  (get_top_routes caller n include_circular, caller)

def get_station_flow_balance_tracked (caller : List StRow) (n : ℕ)
    (thr : ℤ) : List FlowRow × List StRow :=
  (get_station_flow_balance caller n thr, caller)

def get_daily_trend_tracked (caller : Option (List ℕ)) :
    List TrendRow × Option (List ℕ) :=
  (get_daily_trend caller, caller)

/-- C9: every aggregation function — the four metric functions, the
three station/route functions, the two temporal functions and the
forecaster — leaves the caller's table exactly as it was, and a second
call on the table state left behind by the first returns the identical
output. -/
theorem c9_purity :
    (∀ (caller : Option (List TripRow)) (s e : Option ℤ),
      (get_total_trips_tracked caller s e).2 = caller ∧
        (get_total_trips_tracked
          (get_total_trips_tracked caller s e).2 s e).1 =
          (get_total_trips_tracked caller s e).1) ∧
      (∀ caller : Option DTable,
        (get_avg_duration_tracked caller).2 = caller ∧
          (get_avg_duration_tracked (get_avg_duration_tracked caller).2).1 =
            (get_avg_duration_tracked caller).1) ∧
      (∀ (hasId hasDur : Bool) (caller : List BikeRow) (top_n : ℕ) (q : ℚ),
        (get_bike_usage_tracked hasId hasDur caller top_n q).2 = caller ∧
          (get_bike_usage_tracked hasId hasDur
            (get_bike_usage_tracked hasId hasDur caller top_n q).2 top_n q).1 =
            (get_bike_usage_tracked hasId hasDur caller top_n q).1) ∧
      (∀ (caller : Option UTable) (rp : Bool),
        (get_user_type_breakdown_tracked caller rp).2 = caller ∧
          (get_user_type_breakdown_tracked
            (get_user_type_breakdown_tracked caller rp).2 rp).1 =
            (get_user_type_breakdown_tracked caller rp).1) ∧
      (∀ (caller : List StRow) (n : ℕ) (st : String),
        (get_top_stations_tracked caller n st).2 = caller ∧
          (get_top_stations_tracked
            (get_top_stations_tracked caller n st).2 n st).1 =
            (get_top_stations_tracked caller n st).1) ∧
      (∀ (caller : List StRow) (n : ℕ) (ic : Bool),
        (get_top_routes_tracked caller n ic).2 = caller ∧
          (get_top_routes_tracked
            (get_top_routes_tracked caller n ic).2 n ic).1 =
            (get_top_routes_tracked caller n ic).1) ∧
      (∀ (caller : List StRow) (n : ℕ) (thr : ℤ),
        (get_station_flow_balance_tracked caller n thr).2 = caller ∧
          (get_station_flow_balance_tracked
            (get_station_flow_balance_tracked caller n thr).2 n thr).1 =
            (get_station_flow_balance_tracked caller n thr).1) ∧
      (∀ caller : Option (List ℕ),
        (get_peak_hours_tracked caller).2 = caller ∧
          (get_peak_hours_tracked (get_peak_hours_tracked caller).2).1 =
            (get_peak_hours_tracked caller).1) ∧
      (∀ caller : Option (List ℕ),
        (get_daily_trend_tracked caller).2 = caller ∧
          (get_daily_trend_tracked (get_daily_trend_tracked caller).2).1 =
            (get_daily_trend_tracked caller).1) ∧
      ∀ caller : List STime,
        (predict_hourly_demand_tracked caller).2 = caller ∧
          (predict_hourly_demand_tracked
            (predict_hourly_demand_tracked caller).2).1 =
            (predict_hourly_demand_tracked caller).1 :=
  ⟨fun _ _ _ => ⟨rfl, rfl⟩, fun _ => ⟨rfl, rfl⟩, fun _ _ _ _ _ => ⟨rfl, rfl⟩,
    fun _ _ => ⟨rfl, rfl⟩, fun _ _ _ => ⟨rfl, rfl⟩, fun _ _ _ => ⟨rfl, rfl⟩,
    fun _ _ _ => ⟨rfl, rfl⟩, fun _ => ⟨rfl, rfl⟩, fun _ => ⟨rfl, rfl⟩,
    fun _ => ⟨rfl, rfl⟩⟩

end BikeShare
